import Mathlib

/-!
Verification of the camera-calibration module `pyboof/calib.py`: camera model
classes (`CameraPinhole`, `CameraBrown`, `CameraUniversalOmni`,
`CameraKannalaBrandt`), the lens-distortion factory builders
(`create_narrow_lens_distorter`, `create_wide_lens_distorter`), string
rendering, `remove_distortion`, and the calibration wrappers
(`calibrate_universal`, `calibrate_stereo`).

Python numeric values are modelled as exact rationals (`Rat`); Python `int`
image dimensions as `Int`.  Python exceptions are modelled with
`Except PyError`.  The helpers that need closed-term evaluation are written
over `Rat.num`/`Rat.den` and integer arithmetic so that the kernel can
evaluate them on concrete inputs.
-/

namespace PyBoofCalib

/-- Fields introduced by `CameraPinhole.__init__` (calib.py lines 35-47):
intrinsic matrix entries and the image shape. -/
structure PinholeFields where
  fx : Rat
  fy : Rat
  skew : Rat
  cx : Rat
  cy : Rat
  width : Int
  height : Int
deriving DecidableEq

/-- Fields introduced by `CameraBrown.__init__` (lines 123-132): `radial` is a
Python value that is either `None` or a list of coefficients, plus the two
tangential terms. -/
structure BrownFields where
  radial : Option (List Rat)
  t1 : Rat
  t2 : Rat
deriving DecidableEq

/-- Fields introduced by `CameraKannalaBrandt.__init__` (lines 232-241):
five independent coefficient sequences. -/
structure KannalaBrandtFields where
  symmetric : List Rat
  radial : List Rat
  radialTrig : List Rat
  tangent : List Rat
  tangentTrig : List Rat
deriving DecidableEq

/-- The concrete (most-derived) class of a camera-model object.  The Python
class hierarchy is `CameraPinhole <- CameraBrown <- CameraUniversalOmni` and
`CameraPinhole <- CameraKannalaBrandt`; each variant carries the fields its
class chain initialises. -/
inductive Camera where
  | pinhole (p : PinholeFields)
  | brown (p : PinholeFields) (d : BrownFields)
  | universalOmni (p : PinholeFields) (d : BrownFields) (mirror_offset : Rat)
  | kannalaBrandt (p : PinholeFields) (k : KannalaBrandtFields)
deriving DecidableEq

/-- The pinhole-level attributes every camera object carries. -/
def pinholeOf : Camera → PinholeFields
  | .pinhole p => p
  | .brown p _ => p
  | .universalOmni p _ _ => p
  | .kannalaBrandt p _ => p

/-- The Brown-level attributes of a camera object.  `CameraPinhole` and
`CameraKannalaBrandt` objects do not carry these attributes; for them a
placeholder is returned (the source never reads Brown attributes of such
objects on any reachable path). -/
def brownFieldsOf : Camera → BrownFields
  | .brown _ d => d
  | .universalOmni _ d _ => d
  | _ => ⟨none, 0, 0⟩

/-- `isinstance(x, CameraPinhole)`: true for every variant, since all four
classes derive from `CameraPinhole`. -/
def isInstancePinhole : Camera → Bool
  | _ => true

/-- `isinstance(x, CameraBrown)`: true for `CameraBrown` and its subclass
`CameraUniversalOmni`. -/
def isInstanceBrown : Camera → Bool
  | .brown _ _ => true
  | .universalOmni _ _ _ => true
  | _ => false

/-- `isinstance(x, CameraUniversalOmni)`: true only for `CameraUniversalOmni`. -/
def isInstanceUniversalOmni : Camera → Bool
  | .universalOmni _ _ _ => true
  | _ => false

/-- `isinstance(x, CameraKannalaBrandt)`: true only for `CameraKannalaBrandt`. -/
def isInstanceKannalaBrandt : Camera → Bool
  | .kannalaBrandt _ _ => true
  | _ => false

/-- The concrete Python class of a camera object, as reported by `type(x)`. -/
inductive PyType where
  | cameraPinhole
  | cameraBrown
  | cameraUniversalOmni
  | cameraKannalaBrandt
deriving DecidableEq

def typeOf : Camera → PyType
  | .pinhole _ => .cameraPinhole
  | .brown _ _ => .cameraBrown
  | .universalOmni _ _ _ => .cameraUniversalOmni
  | .kannalaBrandt _ _ => .cameraKannalaBrandt

/-- `str(type(x))` for the four camera classes. -/
def pyTypeStr : PyType → String
  | .cameraPinhole => "<class \x27pyboof.calib.CameraPinhole\x27>"
  | .cameraBrown => "<class \x27pyboof.calib.CameraBrown\x27>"
  | .cameraUniversalOmni => "<class \x27pyboof.calib.CameraUniversalOmni\x27>"
  | .cameraKannalaBrandt => "<class \x27pyboof.calib.CameraKannalaBrandt\x27>"

/-- Python exceptions raised by calib.py. -/
inductive PyError where
  | runtimeError (msg : String)
  | indexError (msg : String)
deriving DecidableEq

/-- `CameraBrown.is_distorted` (calib.py line 187-188):
`(self.radial is not None) or self.t1 != 0 or self.t2 != 0`. -/
def is_distorted (d : BrownFields) : Bool :=
  decide (d.radial ≠ none) || decide (d.t1 ≠ 0) || decide (d.t2 ≠ 0)

/-- The BoofCV narrow-FOV lens-distortion engine class instantiated by
`create_narrow_lens_distorter`. -/
inductive NarrowEngine where
  | lensDistortionPinhole
  | lensDistortionBrown
deriving DecidableEq

/-- The BoofCV wide-FOV lens-distortion engine class instantiated by
`create_wide_lens_distorter`. -/
inductive WideEngine where
  | lensDistortionUniversalOmni
  | lensDistortionKannalaBrandt
deriving DecidableEq

/-- Arithmetic precision of a produced transform (Java `_F32` vs `_F64`). -/
inductive Precision where
  | f32
  | f64
deriving DecidableEq

/-- `LensNarrowDistortionFactory` (lines 327-360): wraps a narrow engine and
records the precision flag `use_32` chosen at construction (default `True`). -/
structure LensNarrowDistortionFactory where
  java_obj : NarrowEngine
  use_32 : Bool
deriving DecidableEq

/-- `LensWideDistortionFactory` (lines 363-390). -/
structure LensWideDistortionFactory where
  java_obj : WideEngine
  use_32 : Bool
deriving DecidableEq

/-- Result of `LensNarrowDistortionFactory.distort`/`undistort`: a wrapped
`Point2Transform2_F32` or `Point2Transform2_F64`. -/
structure Transform2to2 where
  precision : Precision
  pixel_in : Bool
  pixel_out : Bool
deriving DecidableEq

/-- Result of `LensWideDistortionFactory.distort_s_to_p`. -/
structure Transform3to2 where
  precision : Precision
deriving DecidableEq

/-- Result of `LensWideDistortionFactory.undistort_p_to_s`. -/
structure Transform2to3 where
  precision : Precision
deriving DecidableEq

/-- `LensNarrowDistortionFactory.distort` (lines 332-345): chooses
`distort_F32` or `distort_F64` according to `self.use_32`. -/
def LensNarrowDistortionFactory.distort (self : LensNarrowDistortionFactory)
    (pixel_in pixel_out : Bool) : Transform2to2 :=
  if self.use_32 then ⟨.f32, pixel_in, pixel_out⟩ else ⟨.f64, pixel_in, pixel_out⟩

/-- `LensNarrowDistortionFactory.undistort` (lines 347-360). -/
def LensNarrowDistortionFactory.undistort (self : LensNarrowDistortionFactory)
    (pixel_in pixel_out : Bool) : Transform2to2 :=
  if self.use_32 then ⟨.f32, pixel_in, pixel_out⟩ else ⟨.f64, pixel_in, pixel_out⟩

/-- `LensWideDistortionFactory.distort_s_to_p` (lines 368-378). -/
def LensWideDistortionFactory.distort_s_to_p (self : LensWideDistortionFactory) :
    Transform3to2 :=
  if self.use_32 then ⟨.f32⟩ else ⟨.f64⟩

/-- `LensWideDistortionFactory.undistort_p_to_s` (lines 380-390). -/
def LensWideDistortionFactory.undistort_p_to_s (self : LensWideDistortionFactory) :
    Transform2to3 :=
  if self.use_32 then ⟨.f32⟩ else ⟨.f64⟩

/-- The precision implied by the `use_32` flag. -/
def factoryPrecision (use_32 : Bool) : Precision :=
  if use_32 then .f32 else .f64

/-- `create_narrow_lens_distorter` (calib.py lines 393-414), with the
`isinstance` tests in source order: `CameraUniversalOmni` first (raises), then
`CameraPinhole`, then `CameraBrown`, else an unknown-model error.  The factory
is built as `LensNarrowDistortionFactory(java_obj)`, i.e. with the default
`use_32=True`. -/
def create_narrow_lens_distorter (camera_model : Camera) :
    Except PyError LensNarrowDistortionFactory :=
  if isInstanceUniversalOmni camera_model then
    .error (.runtimeError "CameraUniversalOmni is not a narrow FOV camera model")
  else if isInstancePinhole camera_model then
    .ok ⟨.lensDistortionPinhole, true⟩
  else if isInstanceBrown camera_model then
    if is_distorted (brownFieldsOf camera_model) then
      .ok ⟨.lensDistortionBrown, true⟩
    else
      .ok ⟨.lensDistortionPinhole, true⟩
  else
    .error (.runtimeError ("Unknown camera model " ++ pyTypeStr (typeOf camera_model)))

/-- `create_wide_lens_distorter` (calib.py lines 417-433): dispatches on
`CameraUniversalOmni`, then `CameraKannalaBrandt`, else raises.  The factory is
built with the default `use_32=True`. -/
def create_wide_lens_distorter (camera_model : Camera) :
    Except PyError LensWideDistortionFactory :=
  if isInstanceUniversalOmni camera_model then
    .ok ⟨.lensDistortionUniversalOmni, true⟩
  else if isInstanceKannalaBrandt camera_model then
    .ok ⟨.lensDistortionKannalaBrandt, true⟩
  else
    .error (.runtimeError ("Unknown camera model " ++ pyTypeStr (typeOf camera_model)))

/-- The value `round(q * 10^6)` used when rendering a numeric value with the
Python format spec `{:f}` (fixed-point, six decimals).  Written over
`Rat.num`/`Rat.den` so the kernel can evaluate it; rounding is to the nearest
multiple of `10^-6` (Python rounds the underlying binary double half-to-even;
the difference can only show in the last printed digit of exact ties, which no
statement below depends on). -/
def fixed6Scaled (q : Rat) : Int :=
  let n := q.num * 1000000
  if 0 ≤ n then (2 * n + q.den) / (2 * (q.den : Int))
  else -((2 * (-n) + (q.den : Int)) / (2 * (q.den : Int)))

/-- The decimal digits of `n < 10^6`, zero-padded to width six. -/
def pad6 (n : Nat) : String := (toString (n + 1000000)).drop 1

/-- Rendering of a numeric value with the Python format spec `{:f}`:
sign, integer part, point, six decimals. -/
def fmtFixed6 (q : Rat) : String :=
  let n := fixed6Scaled q
  (if n < 0 then "-" else "") ++ toString (n.natAbs / 1000000) ++ "."
    ++ pad6 (n.natAbs % 1000000)

/-- Least `k` with `10^k` a multiple of `den` (some `k ≤ 39` exists whenever
`den` has only the prime factors 2 and 5, which holds for every terminating
decimal of double precision). -/
def pow10Exp (den : Nat) : Option Nat :=
  (List.range 40).find? (fun k => 10 ^ k % den == 0)

/-- Python `str()` of a numeric field value.  An integral value renders as its
integer digits (the fields default to Python `int` zero); a terminating
decimal renders with its shortest decimal expansion, matching `repr` of a
float that stores that decimal; other rationals (never produced by the
source's float values) fall back to a fraction rendering. -/
def pyStrVal (q : Rat) : String :=
  if q.den = 1 then toString q.num
  else
    match pow10Exp q.den with
    | some k =>
      let scaled := q.num.natAbs * (10 ^ k / q.den)
      (if q.num < 0 then "-" else "") ++ toString (scaled / 10 ^ k) ++ "."
        ++ (toString (scaled % 10 ^ k + 10 ^ k)).drop 1
    | none => toString q.num ++ "/" ++ toString q.den

/-- Python `str()` of a list of numeric values: `[v0, v1, ...]`. -/
def pyStrList (l : List Rat) : String :=
  "[" ++ String.intercalate ", " (l.map pyStrVal) ++ "]"

/-- Python `str()` of the `radial` attribute, which is `None` or a list. -/
def pyStrRadial : Option (List Rat) → String
  | none => "None"
  | some l => pyStrList l

/-- The formatted pinhole-field core shared by all `__str__` methods:
`NAME{ fx=%f fy=%f skew=%f cx=%f cy=%f | width=%d height=%d`.  (Each Python
class repeats this format string with its own class name.) -/
def pinholeCoreStr (name : String) (p : PinholeFields) : String :=
  name ++ "\x7b fx=" ++ fmtFixed6 p.fx ++ " fy=" ++ fmtFixed6 p.fy
    ++ " skew=" ++ fmtFixed6 p.skew ++ " cx=" ++ fmtFixed6 p.cx
    ++ " cy=" ++ fmtFixed6 p.cy ++ " | width=" ++ toString p.width
    ++ " height=" ++ toString p.height

/-- `CameraPinhole.__str__` (lines 113-115): all braces pass through
`str.format`, so `{{`/`}}` render as single braces. -/
def cameraPinholeStr (p : PinholeFields) : String :=
  pinholeCoreStr "Pinhole" p ++ "\x7d"

/-- The distortion tail appended by `CameraBrown.__str__` and
`CameraUniversalOmni.__str__` when `is_distorted()` is true
(lines 194 and 225): note that both the t1 value and the t2 value are
preceded by the label `t1=`, and the closing text is a plain (unformatted)
`" }"`. -/
def brownDistortedTail (d : BrownFields) : String :=
  " | radial=" ++ pyStrRadial d.radial ++ " t1=" ++ pyStrVal d.t1
    ++ " t1=" ++ pyStrVal d.t2 ++ " \x7d"

/-- `CameraBrown.__str__` (lines 190-197): the header (which ends with a
space after `height=%d`) goes through `str.format`, then either the
distortion tail or the raw text `"}}"` (two literal braces, since this
closing string is concatenated, not formatted) is appended. -/
def cameraBrownStr (p : PinholeFields) (d : BrownFields) : String :=
  let out := pinholeCoreStr "Brown" p ++ " "
  if is_distorted d then out ++ brownDistortedTail d else out ++ "\x7d\x7d"

/-- `CameraUniversalOmni.__str__` (lines 221-228): like Brown but with
` | mirror=%f` in the formatted header. -/
def cameraUniversalOmniStr (p : PinholeFields) (d : BrownFields)
    (mirror_offset : Rat) : String :=
  let out := pinholeCoreStr "UniversalOmni" p ++ " | mirror=" ++ fmtFixed6 mirror_offset
  if is_distorted d then out ++ brownDistortedTail d else out ++ "\x7d\x7d"

/-- `CameraKannalaBrandt.__str__` (lines 270-275): formatted header, then the
five coefficient lists via `str()`, closed by the raw text `" }}"`. -/
def cameraKannalaBrandtStr (p : PinholeFields) (k : KannalaBrandtFields) : String :=
  pinholeCoreStr "CameraKannalaBrandt" p
    ++ " | symmetric=" ++ pyStrList k.symmetric
    ++ " radial=" ++ pyStrList k.radial
    ++ " radialTrig=" ++ pyStrList k.radialTrig
    ++ " tangent=" ++ pyStrList k.tangent
    ++ " tangentTrig=" ++ pyStrList k.tangentTrig ++ " \x7d\x7d"

/-- `str(x)` for a camera-model object, dispatching to the `__str__` of its
concrete class. -/
def cameraStr : Camera → String
  | .pinhole p => cameraPinholeStr p
  | .brown p d => cameraBrownStr p d
  | .universalOmni p d m => cameraUniversalOmniStr p d m
  | .kannalaBrandt p k => cameraKannalaBrandtStr p k

/-- Whether `pat` is a prefix of `s` (character lists). -/
def listHasPre : List Char → List Char → Bool
  | [], _ => true
  | _ :: _, [] => false
  | c :: cs, d :: ds => c == d && listHasPre cs ds

/-- Whether `pat` occurs contiguously in `s` (character lists). -/
def listHasSubB (pat : List Char) : List Char → Bool
  | [] => listHasPre pat []
  | d :: ds => listHasPre pat (d :: ds) || listHasSubB pat ds

/-- Executable substring test on strings. -/
def strContainsB (s pat : String) : Bool := listHasSubB pat.data s.data

/-- `pat` occurs contiguously in `s`. -/
def strHasSub (s pat : String) : Prop := ∃ a b : String, s = a ++ pat ++ b

/-- Modelled from the spec: the wrapped solver's `configureUniversalOmni`
overloads (the solver itself lives in the wrapped Java library, not in this
repository).  Per the spec (section 4.3 step 3) and the wrapper's docstring
("If None it will be estimated"), the three-argument overload leaves
`mirror_offset` a free optimization parameter to be estimated, while the
four-argument overload holds it fixed at the supplied value. -/
inductive ConfigureUniversalOmniCall where
  | estimateMirror (zero_skew : Bool) (num_radial : Int) (tangential : Bool)
  | fixedMirror (zero_skew : Bool) (num_radial : Int) (tangential : Bool)
      (mirror_offset : Rat)
deriving DecidableEq

/-- The solver-configuration step of `calibrate_universal`
(calib.py lines 632-635): if `mirror_offset is None` the three-argument
configure call is made, otherwise the four-argument call with
`float(mirror_offset)`. -/
def calibrate_universal_configure (zero_skew : Bool) (num_radial : Int)
    (tangential : Bool) (mirror_offset : Option Rat) : ConfigureUniversalOmniCall :=
  match mirror_offset with
  | none => .estimateMirror zero_skew num_radial tangential
  | some v => .fixedMirror zero_skew num_radial tangential v

/-- A 2D point with exact coordinates. -/
structure Point2 where
  x : Rat
  y : Rat
deriving DecidableEq

/-- Modelled from the spec: projection of normalized image coordinates to
pixel coordinates through the intrinsic matrix
`[[fx, skew, cx], [0, fy, cy]]` (spec sections 4.2 and Glossary; the
`LensDistortionPinhole` engine itself lives in the wrapped Java library). -/
def pinholeNormToPixel (p : PinholeFields) (n : Point2) : Point2 :=
  ⟨p.fx * n.x + p.skew * n.y + p.cx, p.fy * n.y + p.cy⟩

/-- Modelled from the spec: the inverse intrinsic map, pixel coordinates to
normalized image coordinates. -/
def pinholePixelToNorm (p : PinholeFields) (pt : Point2) : Point2 :=
  let ny := (pt.y - p.cy) / p.fy
  ⟨(pt.x - p.cx - p.skew * ny) / p.fx, ny⟩

/-- Modelled from the spec: the `distort` transform (undistorted pixel to
distorted pixel) built by the closed-form pinhole engine for a model with
zero distortion coefficients: pixel -> normalized -> (no distortion) ->
pixel. -/
def pinholeEngineDistort (p : PinholeFields) (pt : Point2) : Point2 :=
  pinholeNormToPixel p (pinholePixelToNorm p pt)

/-- Modelled from the spec: the `undistort` transform (distorted pixel to
undistorted pixel) of the closed-form pinhole engine; with zero distortion it
is the same normalized-coordinate round trip. -/
def pinholeEngineUndistort (p : PinholeFields) (pt : Point2) : Point2 :=
  pinholeNormToPixel p (pinholePixelToNorm p pt)

/-- A pixel point lies inside the image bounds of a model. -/
def inImageBounds (p : PinholeFields) (pt : Point2) : Prop :=
  0 ≤ pt.x ∧ pt.x ≤ (p.width : Rat) ∧ 0 ≤ pt.y ∧ pt.y ≤ (p.height : Rat)

instance (p : PinholeFields) (pt : Point2) : Decidable (inImageBounds p pt) := by
  unfold inImageBounds
  infer_instance

/-- The distance tolerance `1e-6` pixels from the spec's round-trip property. -/
def tol6 : Rat := 1 / 1000000

/-- The `desired` object built inside `remove_distortion`: a fresh
`CameraPinhole()` whose pinhole fields are then overwritten by
`desired.set(intrinsic)` and which receives dynamically-assigned distortion
attributes `radial`, `t1`, `t2`. -/
structure DesiredModel where
  p : PinholeFields
  radial : List Rat
  t1 : Rat
  t2 : Rat
deriving DecidableEq

/-- `CameraPinhole.__init__` defaults (lines 36-45): all fields zero. -/
def pinholeDefault : PinholeFields := ⟨0, 0, 0, 0, 0, 0, 0⟩

/-- `CameraPinhole.set` (lines 81-88): overwrites all seven fields of `self`
with the fields of `orig`; `orig` is only read. -/
def pinholeSet (_self orig : PinholeFields) : PinholeFields :=
  ⟨orig.fx, orig.fy, orig.skew, orig.cx, orig.cy, orig.width, orig.height⟩

/-- The caller-visible outcome of one `remove_distortion` call: the final
state of the caller's `intrinsic` object, the final state of the locally
constructed `desired` object, and the returned adjusted model. -/
structure RemoveDistortionTrace where
  intrinsic_final : Camera
  desired_final : DesiredModel
  output : PinholeFields
deriving DecidableEq

/-- `remove_distortion` (calib.py lines 505-532), statement by statement:
`desired = CameraPinhole()`; `desired.set(intrinsic)` (writes `desired`,
reads `intrinsic`); `desired.radial = [0, 0]`; `desired.t1 = desired.t2 = 0`;
then `create_change_camera_model(intrinsic, desired, ...)` (reads both via
`convert_to_boof` and returns a model freshly constructed from the Java
output).  The image resampling and the `changeCameraModel` computation happen
in the wrapped library; the latter is taken as an arbitrary function
parameter.  No statement assigns to any field of `intrinsic`, which is
why the trace carries it through unchanged. -/
def remove_distortion (changeCameraModel : Camera → DesiredModel → PinholeFields)
    (intrinsic : Camera) : RemoveDistortionTrace :=
  let desired0 := pinholeDefault
  let desired1 := pinholeSet desired0 (pinholeOf intrinsic)
  let desired2 : DesiredModel := ⟨desired1, [0, 0], 0, 0⟩
  let intrinsic_out := changeCameraModel intrinsic desired2
  ⟨intrinsic, desired2, intrinsic_out⟩

/-- Python list indexing `xs[i]`: the element, or `IndexError` when `i` is out
of range. -/
def pyListGet (xs : List α) (i : Nat) : Except PyError α :=
  match xs.get? i with
  | some v => .ok v
  | none => .error (.indexError "list index out of range")

/-- The pairing loop of `calibrate_stereo` (calib.py lines 697-700):
`for idx in range(len(observations_left)):` convert and pair
`observations_left[idx]` with `observations_right[idx]`.  `fuel` is the number
of remaining iterations, so the loop runs `len(observations_left)` times; the
left access never fails, the right access raises `IndexError` past the end of
the right list. -/
def stereoPairLoop (left right : List α) : Nat → Nat → Except PyError (List (α × α))
  | _, 0 => .ok []
  | idx, fuel + 1 => do
    let jobs_left ← pyListGet left idx
    let jobs_right ← pyListGet right idx
    let rest ← stereoPairLoop left right (idx + 1) fuel
    pure ((jobs_left, jobs_right) :: rest)

/-- The sequence of observation pairs handed to the stereo solver by
`calibrate_stereo`, or the exception escaping the loop. -/
def calibrate_stereo_pairs (left right : List α) : Except PyError (List (α × α)) :=
  stereoPairLoop left right 0 left.length

/-- Introduction rule for `strHasSub` from a right-associated decomposition. -/
theorem strHasSub_intro (s a pat b : String) (h : s = a ++ (pat ++ b)) :
    strHasSub s pat :=
  ⟨a, b, by rw [h, String.append_assoc]⟩

/-- C1: the claim says `create_narrow_lens_distorter` routes a Brown model
with `is_distorted()` true to the full polynomial Brown engine.  Evaluating
the source's dispatch on a distorted Brown model shows it is routed to the
closed-form pinhole engine instead: the `isinstance(camera_model,
CameraPinhole)` test (line 402) also matches every `CameraBrown` object,
since `CameraBrown` subclasses `CameraPinhole`, so the Brown branch
(lines 405-410, whose `is_distorted()` test shows the claimed dispatch was
intended) is unreachable and every Brown model gets the pinhole engine. -/
theorem c1_distorted_brown_gets_pinhole_engine :
    is_distorted ⟨some [1], 0, 0⟩ = true
    ∧ create_narrow_lens_distorter
        (.brown ⟨500, 500, 0, 320, 240, 640, 480⟩ ⟨some [1], 0, 0⟩)
        = .ok ⟨.lensDistortionPinhole, true⟩
    ∧ ∀ (p : PinholeFields) (d : BrownFields),
        create_narrow_lens_distorter (.brown p d) = .ok ⟨.lensDistortionPinhole, true⟩ :=
  ⟨by decide, rfl, fun _ _ => rfl⟩

/-- C2: for every `CameraUniversalOmni` instance, `create_narrow_lens_distorter`
raises the unsupported-model error before any other dispatch and returns no
factory. -/
theorem c2_universal_omni_rejected_narrow :
    ∀ (p : PinholeFields) (d : BrownFields) (mirror_offset : Rat),
      create_narrow_lens_distorter (.universalOmni p d mirror_offset)
        = .error (.runtimeError "CameraUniversalOmni is not a narrow FOV camera model") :=
  fun _ _ _ => rfl

/-- The radial coefficient sequence of a Brown model as the claim reads it:
the list of coefficients, empty when the `radial` attribute is `None`. -/
def radialSeq (d : BrownFields) : List Rat := d.radial.getD []

/-- C3 counterexample: a Brown model whose radial attribute is the empty list
and whose tangential terms are zero has an empty radial coefficient sequence,
yet `is_distorted()` returns true, because the source tests
`self.radial is not None` rather than non-emptiness. -/
theorem c3_counterexample :
    is_distorted ⟨some [], 0, 0⟩ = true
    ∧ ¬ (radialSeq ⟨some [], 0, 0⟩ ≠ []
          ∨ (⟨some [], 0, 0⟩ : BrownFields).t1 ≠ 0
          ∨ (⟨some [], 0, 0⟩ : BrownFields).t2 ≠ 0) :=
  ⟨by decide, by decide⟩

/-- C3 (amended): `is_distorted()` returns true iff the `radial` attribute is
present (not `None`), or `t1` is nonzero, or `t2` is nonzero; in particular a
Brown model whose radial attribute is `None` and whose tangential terms are
zero reports false, but one whose radial attribute is an empty list reports
true. -/
theorem c3_is_distorted_amended :
    ∀ d : BrownFields,
      is_distorted d = true ↔ (d.radial ≠ none ∨ d.t1 ≠ 0 ∨ d.t2 ≠ 0) := by
  intro d
  simp [is_distorted, or_assoc]

/-- C4: `calibrate_universal` issues the four-argument configure call (mirror
offset held fixed at the supplied value) exactly when `mirror_offset` is
supplied, and the three-argument call (mirror offset a free optimization
parameter to be estimated) exactly when it is omitted. -/
theorem c4_mirror_offset_configuration :
    ∀ (zero_skew : Bool) (num_radial : Int) (tangential : Bool),
      (∀ v : Rat,
        calibrate_universal_configure zero_skew num_radial tangential (some v)
          = .fixedMirror zero_skew num_radial tangential v)
      ∧ calibrate_universal_configure zero_skew num_radial tangential none
          = .estimateMirror zero_skew num_radial tangential :=
  fun _ _ _ => ⟨fun _ => rfl, rfl⟩

/-- C5: every transform produced by one factory instance (narrow `distort`
and `undistort`, wide `distort_s_to_p` and `undistort_p_to_s`) carries the
one precision determined by the factory's build-time `use_32` flag, so one
instance never mixes precisions. -/
theorem c5_precision_fixed_per_factory :
    ∀ (f : LensNarrowDistortionFactory) (g : LensWideDistortionFactory)
      (in1 out1 in2 out2 : Bool),
      (f.distort in1 out1).precision = factoryPrecision f.use_32
      ∧ (f.undistort in2 out2).precision = factoryPrecision f.use_32
      ∧ g.distort_s_to_p.precision = factoryPrecision g.use_32
      ∧ g.undistort_p_to_s.precision = factoryPrecision g.use_32 := by
  intro f g in1 out1 in2 out2
  cases hf : f.use_32 <;> cases hg : g.use_32 <;>
    simp [LensNarrowDistortionFactory.distort, LensNarrowDistortionFactory.undistort,
      LensWideDistortionFactory.distort_s_to_p, LensWideDistortionFactory.undistort_p_to_s,
      factoryPrecision, hf, hg]

/-- C8: `create_wide_lens_distorter` on any camera model that is neither a
`CameraUniversalOmni` nor a `CameraKannalaBrandt` (in particular plain
`CameraPinhole` and `CameraBrown` instances) raises the unknown-camera-model
error and returns no factory. -/
theorem c8_wide_rejects_narrow_models :
    ∀ m : Camera,
      isInstanceUniversalOmni m = false → isInstanceKannalaBrandt m = false →
      create_wide_lens_distorter m
        = .error (.runtimeError ("Unknown camera model " ++ pyTypeStr (typeOf m))) := by
  intro m h1 h2
  simp [create_wide_lens_distorter, h1, h2]

/-- C8 witness: a plain pinhole model is rejected by the wide builder. -/
theorem c8_witness :
    isInstanceUniversalOmni (.pinhole pinholeDefault) = false
    ∧ isInstanceKannalaBrandt (.pinhole pinholeDefault) = false
    ∧ create_wide_lens_distorter (.pinhole pinholeDefault)
        = .error (.runtimeError
            ("Unknown camera model " ++ pyTypeStr (typeOf (.pinhole pinholeDefault)))) :=
  ⟨rfl, rfl, c8_wide_rejects_narrow_models (.pinhole pinholeDefault) rfl rfl⟩

/-- C9: `remove_distortion` leaves the caller's `intrinsic` object unchanged:
the zero-distortion desired model is built in a freshly constructed copy whose
pinhole fields are those of `intrinsic` and whose distortion is zeroed
(`radial=[0,0]`, `t1=t2=0`), and the returned model is the separately
constructed output of the change-camera-model step, whatever that step
computes. -/
theorem c9_remove_distortion_frame :
    ∀ (changeCameraModel : Camera → DesiredModel → PinholeFields) (intrinsic : Camera),
      (remove_distortion changeCameraModel intrinsic).intrinsic_final = intrinsic
      ∧ (remove_distortion changeCameraModel intrinsic).desired_final
          = ⟨pinholeOf intrinsic, [0, 0], 0, 0⟩
      ∧ (remove_distortion changeCameraModel intrinsic).output
          = changeCameraModel intrinsic ⟨pinholeOf intrinsic, [0, 0], 0, 0⟩ :=
  fun _ _ => ⟨rfl, rfl, rfl⟩

/-- When both lists extend past every visited index, the pairing loop returns
the position-wise pairs of the visited segments. -/
theorem stereoPairLoop_ok {α : Type} :
    ∀ (fuel idx : Nat) (left right : List α),
      idx + fuel ≤ left.length → idx + fuel ≤ right.length →
      stereoPairLoop left right idx fuel
        = .ok (((left.drop idx).take fuel).zip ((right.drop idx).take fuel)) := by
  intro fuel
  induction fuel with
  | zero => intro idx left right _ _; simp [stereoPairLoop]
  | succ n ih =>
    intro idx left right hL hR
    have hiL : idx < left.length := by omega
    have hiR : idx < right.length := by omega
    have h1 : pyListGet left idx = .ok left[idx] := by
      simp [pyListGet, List.get?_eq_getElem?, List.getElem?_eq_getElem hiL]
    have h2 : pyListGet right idx = .ok right[idx] := by
      simp [pyListGet, List.get?_eq_getElem?, List.getElem?_eq_getElem hiR]
    have hrec := ih (idx + 1) left right (by omega) (by omega)
    rw [List.drop_eq_getElem_cons hiL, List.drop_eq_getElem_cons hiR]
    simp only [stereoPairLoop, h1, h2, hrec, List.take_succ_cons, List.zip_cons_cons,
      bind, Except.bind, pure, Except.pure]

/-- When the right list is too short, the pairing loop raises `IndexError`. -/
theorem stereoPairLoop_err {α : Type} :
    ∀ (fuel idx : Nat) (left right : List α),
      right.length < idx + fuel → idx + fuel ≤ left.length → idx ≤ right.length →
      stereoPairLoop left right idx fuel
        = .error (.indexError "list index out of range") := by
  intro fuel
  induction fuel with
  | zero => intro idx left right h1 _ h3; omega
  | succ n ih =>
    intro idx left right h1 h2 h3
    have hiL : idx < left.length := by omega
    have hL : pyListGet left idx = .ok left[idx] := by
      simp [pyListGet, List.get?_eq_getElem?, List.getElem?_eq_getElem hiL]
    rcases Nat.lt_or_ge idx right.length with hiR | hiR
    · have hR : pyListGet right idx = .ok right[idx] := by
        simp [pyListGet, List.get?_eq_getElem?, List.getElem?_eq_getElem hiR]
      have hrec := ih (idx + 1) left right (by omega) (by omega) (by omega)
      simp only [stereoPairLoop, hL, hR, hrec, bind, Except.bind]
    · have hnone : right[idx]? = none := List.getElem?_eq_none (by omega)
      have hR : pyListGet right idx = .error (.indexError "list index out of range") := by
        simp [pyListGet, hnone]
      simp only [stereoPairLoop, hL, hR, bind, Except.bind]

/-- C10: `calibrate_stereo` pairs observations strictly by list position over
exactly `len(observations_left)` indices: when the right list is at least as
long, the result is the position-wise pairing (right-camera observations
beyond that count are ignored and exactly `len(observations_left)` pairs are
processed); when the right list is shorter, the loop raises `IndexError`
(`list index out of range`) rather than any calibration-specific error. -/
theorem c10_stereo_pairing {α : Type} :
    ∀ left right : List α,
      (left.length ≤ right.length →
        calibrate_stereo_pairs left right = .ok (left.zip (right.take left.length))
        ∧ (left.zip (right.take left.length)).length = left.length)
      ∧ (right.length < left.length →
        calibrate_stereo_pairs left right
          = .error (.indexError "list index out of range")) := by
  intro left right
  constructor
  · intro h
    constructor
    · have := stereoPairLoop_ok left.length 0 left right (by omega) (by omega)
      simpa [calibrate_stereo_pairs, List.drop_zero, List.take_length] using this
    · simp [List.length_zip, List.length_take]
      omega
  · intro h
    have := stereoPairLoop_err left.length 0 left right (by omega) (by omega) (by omega)
    simpa [calibrate_stereo_pairs] using this

/-- C10 witness: with two left observations, a three-element right list yields
exactly the first two pairs, and a one-element right list raises IndexError. -/
theorem c10_witness :
    (([1, 2] : List Nat).length ≤ ([3, 4, 5] : List Nat).length
      ∧ calibrate_stereo_pairs ([1, 2] : List Nat) [3, 4, 5]
          = .ok (([1, 2] : List Nat).zip (([3, 4, 5] : List Nat).take
              ([1, 2] : List Nat).length)))
    ∧ (([5] : List Nat).length < ([1, 2] : List Nat).length
      ∧ calibrate_stereo_pairs ([1, 2] : List Nat) [5]
          = .error (.indexError "list index out of range")) :=
  ⟨⟨by decide, ((c10_stereo_pairing [1, 2] [3, 4, 5]).1 (by decide)).1⟩,
   ⟨by decide, (c10_stereo_pairing [1, 2] [5]).2 (by decide)⟩⟩

/-- Occurrences survive appending on the right. -/
theorem strHasSub_append_right (s t pat : String) (h : strHasSub s pat) :
    strHasSub (s ++ t) pat := by
  obtain ⟨a, b, rfl⟩ := h
  exact ⟨a, b ++ t, by simp [String.append_assoc]⟩

/-- Every pinhole-level field appears, under its label, in the formatted
header shared by all `__str__` methods. -/
theorem pinholeCoreStr_fields (name : String) (p : PinholeFields) :
    strHasSub (pinholeCoreStr name p) ("\x7b fx=" ++ fmtFixed6 p.fx)
    ∧ strHasSub (pinholeCoreStr name p) (" fy=" ++ fmtFixed6 p.fy)
    ∧ strHasSub (pinholeCoreStr name p) (" skew=" ++ fmtFixed6 p.skew)
    ∧ strHasSub (pinholeCoreStr name p) (" cx=" ++ fmtFixed6 p.cx)
    ∧ strHasSub (pinholeCoreStr name p) (" cy=" ++ fmtFixed6 p.cy)
    ∧ strHasSub (pinholeCoreStr name p) (" | width=" ++ toString p.width)
    ∧ strHasSub (pinholeCoreStr name p) (" height=" ++ toString p.height) := by
  refine ⟨?_, ?_, ?_, ?_, ?_, ?_, ?_⟩
  · refine strHasSub_intro _ name _
      (" fy=" ++ (fmtFixed6 p.fy ++ (" skew=" ++ (fmtFixed6 p.skew
        ++ (" cx=" ++ (fmtFixed6 p.cx ++ (" cy=" ++ (fmtFixed6 p.cy
        ++ (" | width=" ++ (toString p.width ++ (" height="
        ++ toString p.height))))))))))) ?_
    simp [pinholeCoreStr, String.append_assoc]
  · refine strHasSub_intro _ (name ++ ("\x7b fx=" ++ fmtFixed6 p.fx)) _
      (" skew=" ++ (fmtFixed6 p.skew ++ (" cx=" ++ (fmtFixed6 p.cx
        ++ (" cy=" ++ (fmtFixed6 p.cy ++ (" | width=" ++ (toString p.width
        ++ (" height=" ++ toString p.height))))))))) ?_
    simp [pinholeCoreStr, String.append_assoc]
  · refine strHasSub_intro _
      (name ++ ("\x7b fx=" ++ (fmtFixed6 p.fx ++ (" fy=" ++ fmtFixed6 p.fy)))) _
      (" cx=" ++ (fmtFixed6 p.cx ++ (" cy=" ++ (fmtFixed6 p.cy
        ++ (" | width=" ++ (toString p.width ++ (" height="
        ++ toString p.height))))))) ?_
    simp [pinholeCoreStr, String.append_assoc]
  · refine strHasSub_intro _
      (name ++ ("\x7b fx=" ++ (fmtFixed6 p.fx ++ (" fy=" ++ (fmtFixed6 p.fy
        ++ (" skew=" ++ fmtFixed6 p.skew)))))) _
      (" cy=" ++ (fmtFixed6 p.cy ++ (" | width=" ++ (toString p.width
        ++ (" height=" ++ toString p.height))))) ?_
    simp [pinholeCoreStr, String.append_assoc]
  · refine strHasSub_intro _
      (name ++ ("\x7b fx=" ++ (fmtFixed6 p.fx ++ (" fy=" ++ (fmtFixed6 p.fy
        ++ (" skew=" ++ (fmtFixed6 p.skew ++ (" cx=" ++ fmtFixed6 p.cx)))))))) _
      (" | width=" ++ (toString p.width ++ (" height=" ++ toString p.height))) ?_
    simp [pinholeCoreStr, String.append_assoc]
  · refine strHasSub_intro _
      (name ++ ("\x7b fx=" ++ (fmtFixed6 p.fx ++ (" fy=" ++ (fmtFixed6 p.fy
        ++ (" skew=" ++ (fmtFixed6 p.skew ++ (" cx=" ++ (fmtFixed6 p.cx
        ++ (" cy=" ++ fmtFixed6 p.cy)))))))))) _
      (" height=" ++ toString p.height) ?_
    simp [pinholeCoreStr, String.append_assoc]
  · refine strHasSub_intro _
      (name ++ ("\x7b fx=" ++ (fmtFixed6 p.fx ++ (" fy=" ++ (fmtFixed6 p.fy
        ++ (" skew=" ++ (fmtFixed6 p.skew ++ (" cx=" ++ (fmtFixed6 p.cx
        ++ (" cy=" ++ (fmtFixed6 p.cy ++ (" | width="
        ++ toString p.width)))))))))))) _
      "" ?_
    simp [pinholeCoreStr, String.append_assoc]

/-- C6 counterexample: the rendering of an undistorted Brown model (radial
attribute `None`, zero tangential terms) contains no `radial` text at all, and
the rendering of a distorted Brown model contains no `t2=` label (the t2 value
is printed after a second `t1=` label), refuting the claim that every Brown
rendering includes radial, t1 and t2, each under its own correct label. -/
theorem c6_counterexample :
    strContainsB (cameraBrownStr pinholeDefault ⟨none, 0, 0⟩) "radial" = false
    ∧ strContainsB (cameraBrownStr pinholeDefault ⟨some [1], 0, 0⟩) "t2=" = false := by
  constructor
  · decide
  · decide

/-- C6 (amended): `CameraPinhole` and `CameraKannalaBrandt` renderings always
include every model-specific field under its label, and `CameraUniversalOmni`
always includes `mirror`; but `CameraBrown` and `CameraUniversalOmni` include
`radial`, `t1` and `t2` only when `is_distorted()` is true (otherwise the
rendering is just the pinhole-field header plus a closing `\x7d\x7d`), and
when they are included the t2 value is rendered after a second `t1=` label
rather than a `t2=` label. -/
theorem c6_render_amended :
    (∀ (p : PinholeFields) (d : BrownFields), is_distorted d = true →
      strHasSub (cameraBrownStr p d) (" | radial=" ++ pyStrRadial d.radial)
      ∧ strHasSub (cameraBrownStr p d) (" t1=" ++ pyStrVal d.t1)
      ∧ strHasSub (cameraBrownStr p d) (" t1=" ++ pyStrVal d.t2))
    ∧ (∀ (p : PinholeFields) (d : BrownFields), is_distorted d = false →
      cameraBrownStr p d = pinholeCoreStr "Brown" p ++ " " ++ "\x7d\x7d")
    ∧ (∀ (p : PinholeFields) (d : BrownFields) (mo : Rat),
      strHasSub (cameraUniversalOmniStr p d mo) (" | mirror=" ++ fmtFixed6 mo))
    ∧ (∀ (p : PinholeFields) (d : BrownFields) (mo : Rat), is_distorted d = true →
      strHasSub (cameraUniversalOmniStr p d mo) (" | radial=" ++ pyStrRadial d.radial)
      ∧ strHasSub (cameraUniversalOmniStr p d mo) (" t1=" ++ pyStrVal d.t1)
      ∧ strHasSub (cameraUniversalOmniStr p d mo) (" t1=" ++ pyStrVal d.t2))
    ∧ (∀ (p : PinholeFields) (d : BrownFields) (mo : Rat), is_distorted d = false →
      cameraUniversalOmniStr p d mo
        = pinholeCoreStr "UniversalOmni" p ++ " | mirror=" ++ fmtFixed6 mo ++ "\x7d\x7d")
    ∧ (∀ (p : PinholeFields) (k : KannalaBrandtFields),
      strHasSub (cameraKannalaBrandtStr p k) (" | symmetric=" ++ pyStrList k.symmetric)
      ∧ strHasSub (cameraKannalaBrandtStr p k) (" radial=" ++ pyStrList k.radial)
      ∧ strHasSub (cameraKannalaBrandtStr p k) (" radialTrig=" ++ pyStrList k.radialTrig)
      ∧ strHasSub (cameraKannalaBrandtStr p k) (" tangent=" ++ pyStrList k.tangent)
      ∧ strHasSub (cameraKannalaBrandtStr p k) (" tangentTrig=" ++ pyStrList k.tangentTrig))
    ∧ (∀ p : PinholeFields,
      strHasSub (cameraPinholeStr p) ("\x7b fx=" ++ fmtFixed6 p.fx)
      ∧ strHasSub (cameraPinholeStr p) (" fy=" ++ fmtFixed6 p.fy)
      ∧ strHasSub (cameraPinholeStr p) (" skew=" ++ fmtFixed6 p.skew)
      ∧ strHasSub (cameraPinholeStr p) (" cx=" ++ fmtFixed6 p.cx)
      ∧ strHasSub (cameraPinholeStr p) (" cy=" ++ fmtFixed6 p.cy)
      ∧ strHasSub (cameraPinholeStr p) (" | width=" ++ toString p.width)
      ∧ strHasSub (cameraPinholeStr p) (" height=" ++ toString p.height)) := by
  refine ⟨?_, ?_, ?_, ?_, ?_, ?_, ?_⟩
  · intro p d h
    refine ⟨?_, ?_, ?_⟩
    · refine strHasSub_intro _ (pinholeCoreStr "Brown" p ++ " ") _
        (" t1=" ++ pyStrVal d.t1 ++ (" t1=" ++ (pyStrVal d.t2 ++ " \x7d"))) ?_
      simp [cameraBrownStr, h, brownDistortedTail, String.append_assoc]
    · refine strHasSub_intro _
        (pinholeCoreStr "Brown" p ++ " " ++ (" | radial=" ++ pyStrRadial d.radial)) _
        (" t1=" ++ (pyStrVal d.t2 ++ " \x7d")) ?_
      simp [cameraBrownStr, h, brownDistortedTail, String.append_assoc]
    · refine strHasSub_intro _
        (pinholeCoreStr "Brown" p ++ " "
          ++ (" | radial=" ++ pyStrRadial d.radial ++ (" t1=" ++ pyStrVal d.t1))) _
        " \x7d" ?_
      simp [cameraBrownStr, h, brownDistortedTail, String.append_assoc]
  · intro p d h
    simp [cameraBrownStr, h]
  · intro p d mo
    cases h : is_distorted d with
    | true =>
      refine strHasSub_intro _ (pinholeCoreStr "UniversalOmni" p) _
        (brownDistortedTail d) ?_
      simp [cameraUniversalOmniStr, h, String.append_assoc]
    | false =>
      refine strHasSub_intro _ (pinholeCoreStr "UniversalOmni" p) _ "\x7d\x7d" ?_
      simp [cameraUniversalOmniStr, h, String.append_assoc]
  · intro p d mo h
    refine ⟨?_, ?_, ?_⟩
    · refine strHasSub_intro _
        (pinholeCoreStr "UniversalOmni" p ++ (" | mirror=" ++ fmtFixed6 mo)) _
        (" t1=" ++ (pyStrVal d.t1 ++ (" t1=" ++ (pyStrVal d.t2 ++ " \x7d")))) ?_
      simp [cameraUniversalOmniStr, h, brownDistortedTail, String.append_assoc]
    · refine strHasSub_intro _
        (pinholeCoreStr "UniversalOmni" p ++ (" | mirror=" ++ (fmtFixed6 mo
          ++ (" | radial=" ++ pyStrRadial d.radial)))) _
        (" t1=" ++ (pyStrVal d.t2 ++ " \x7d")) ?_
      simp [cameraUniversalOmniStr, h, brownDistortedTail, String.append_assoc]
    · refine strHasSub_intro _
        (pinholeCoreStr "UniversalOmni" p ++ (" | mirror=" ++ (fmtFixed6 mo
          ++ (" | radial=" ++ (pyStrRadial d.radial
          ++ (" t1=" ++ pyStrVal d.t1)))))) _
        " \x7d" ?_
      simp [cameraUniversalOmniStr, h, brownDistortedTail, String.append_assoc]
  · intro p d mo h
    simp [cameraUniversalOmniStr, h, String.append_assoc]
  · intro p k
    refine ⟨?_, ?_, ?_, ?_, ?_⟩
    · refine strHasSub_intro _ (pinholeCoreStr "CameraKannalaBrandt" p) _
        (" radial=" ++ (pyStrList k.radial ++ (" radialTrig=" ++ (pyStrList k.radialTrig
          ++ (" tangent=" ++ (pyStrList k.tangent ++ (" tangentTrig="
          ++ (pyStrList k.tangentTrig ++ " \x7d\x7d")))))))) ?_
      simp [cameraKannalaBrandtStr, String.append_assoc]
    · refine strHasSub_intro _
        (pinholeCoreStr "CameraKannalaBrandt" p
          ++ (" | symmetric=" ++ pyStrList k.symmetric)) _
        (" radialTrig=" ++ (pyStrList k.radialTrig ++ (" tangent="
          ++ (pyStrList k.tangent ++ (" tangentTrig="
          ++ (pyStrList k.tangentTrig ++ " \x7d\x7d")))))) ?_
      simp [cameraKannalaBrandtStr, String.append_assoc]
    · refine strHasSub_intro _
        (pinholeCoreStr "CameraKannalaBrandt" p
          ++ (" | symmetric=" ++ (pyStrList k.symmetric
          ++ (" radial=" ++ pyStrList k.radial)))) _
        (" tangent=" ++ (pyStrList k.tangent ++ (" tangentTrig="
          ++ (pyStrList k.tangentTrig ++ " \x7d\x7d")))) ?_
      simp [cameraKannalaBrandtStr, String.append_assoc]
    · refine strHasSub_intro _
        (pinholeCoreStr "CameraKannalaBrandt" p
          ++ (" | symmetric=" ++ (pyStrList k.symmetric
          ++ (" radial=" ++ (pyStrList k.radial
          ++ (" radialTrig=" ++ pyStrList k.radialTrig)))))) _
        (" tangentTrig=" ++ (pyStrList k.tangentTrig ++ " \x7d\x7d")) ?_
      simp [cameraKannalaBrandtStr, String.append_assoc]
    · refine strHasSub_intro _
        (pinholeCoreStr "CameraKannalaBrandt" p
          ++ (" | symmetric=" ++ (pyStrList k.symmetric
          ++ (" radial=" ++ (pyStrList k.radial
          ++ (" radialTrig=" ++ (pyStrList k.radialTrig
          ++ (" tangent=" ++ pyStrList k.tangent)))))))) _
        " \x7d\x7d" ?_
      simp [cameraKannalaBrandtStr, String.append_assoc]
  · intro p
    have hcore := pinholeCoreStr_fields "Pinhole" p
    have heq : cameraPinholeStr p = pinholeCoreStr "Pinhole" p ++ "\x7d" := rfl
    rw [heq]
    exact ⟨strHasSub_append_right _ _ _ hcore.1,
      strHasSub_append_right _ _ _ hcore.2.1,
      strHasSub_append_right _ _ _ hcore.2.2.1,
      strHasSub_append_right _ _ _ hcore.2.2.2.1,
      strHasSub_append_right _ _ _ hcore.2.2.2.2.1,
      strHasSub_append_right _ _ _ hcore.2.2.2.2.2.1,
      strHasSub_append_right _ _ _ hcore.2.2.2.2.2.2⟩

/-- C6 witness: the amended rendering facts instantiated on concrete models. -/
theorem c6_render_amended_witness :
    is_distorted ⟨some [1], 0, 0⟩ = true
    ∧ strHasSub (cameraBrownStr pinholeDefault ⟨some [1], 0, 0⟩)
        (" | radial=" ++ pyStrRadial ((⟨some [1], 0, 0⟩ : BrownFields)).radial)
    ∧ is_distorted ⟨none, 0, 0⟩ = false
    ∧ cameraBrownStr pinholeDefault ⟨none, 0, 0⟩
        = pinholeCoreStr "Brown" pinholeDefault ++ " " ++ "\x7d\x7d"
    ∧ strHasSub (cameraUniversalOmniStr pinholeDefault ⟨some [1], 0, 0⟩ 0)
        (" t1=" ++ pyStrVal ((⟨some [1], 0, 0⟩ : BrownFields)).t2)
    ∧ cameraUniversalOmniStr pinholeDefault ⟨none, 0, 0⟩ 0
        = pinholeCoreStr "UniversalOmni" pinholeDefault ++ " | mirror="
            ++ fmtFixed6 0 ++ "\x7d\x7d" :=
  ⟨by decide,
   (c6_render_amended.1 pinholeDefault ⟨some [1], 0, 0⟩ (by decide)).1,
   by decide,
   c6_render_amended.2.1 pinholeDefault ⟨none, 0, 0⟩ (by decide),
   (c6_render_amended.2.2.2.1 pinholeDefault ⟨some [1], 0, 0⟩ 0 (by decide)).2.2,
   c6_render_amended.2.2.2.2.1 pinholeDefault ⟨none, 0, 0⟩ 0 (by decide)⟩

/-- C7: for a valid pinhole model (nonzero focal lengths, the models produced
by a successful calibration) with zero distortion, the narrow-FOV engine
chosen by the builder is the closed-form pinhole engine, and composing its
distort and undistort transforms in either order returns every in-bounds
pixel exactly, hence within the 1e-6 pixel tolerance. -/
theorem c7_pinhole_roundtrip :
    ∀ (p : PinholeFields) (pt : Point2), p.fx ≠ 0 → p.fy ≠ 0 → inImageBounds p pt →
      create_narrow_lens_distorter (.pinhole p) = .ok ⟨.lensDistortionPinhole, true⟩
      ∧ |(pinholeEngineDistort p (pinholeEngineUndistort p pt)).x - pt.x| ≤ tol6
      ∧ |(pinholeEngineDistort p (pinholeEngineUndistort p pt)).y - pt.y| ≤ tol6
      ∧ |(pinholeEngineUndistort p (pinholeEngineDistort p pt)).x - pt.x| ≤ tol6
      ∧ |(pinholeEngineUndistort p (pinholeEngineDistort p pt)).y - pt.y| ≤ tol6 := by
  intro p pt hfx hfy _
  have hid : ∀ q : Point2, pinholeNormToPixel p (pinholePixelToNorm p q) = q := by
    intro q
    cases q with
    | mk qx qy =>
      simp only [pinholeNormToPixel, pinholePixelToNorm, Point2.mk.injEq]
      constructor
      · field_simp
        ring
      · field_simp
  have hD : ∀ q : Point2, pinholeEngineDistort p q = q := hid
  have hU : ∀ q : Point2, pinholeEngineUndistort p q = q := hid
  refine ⟨rfl, ?_, ?_, ?_, ?_⟩ <;>
    · simp only [hD, hU, sub_self, abs_zero]
      norm_num [tol6]

/-- C7 witness: the round-trip bound instantiated on a concrete valid pinhole
model and an in-bounds pixel. -/
theorem c7_pinhole_roundtrip_witness :
    ((⟨100, 100, 0, 5, 5, 10, 10⟩ : PinholeFields).fx ≠ 0
      ∧ (⟨100, 100, 0, 5, 5, 10, 10⟩ : PinholeFields).fy ≠ 0
      ∧ inImageBounds ⟨100, 100, 0, 5, 5, 10, 10⟩ ⟨3, 4⟩)
    ∧ (create_narrow_lens_distorter (.pinhole ⟨100, 100, 0, 5, 5, 10, 10⟩)
        = .ok ⟨.lensDistortionPinhole, true⟩
      ∧ |(pinholeEngineDistort ⟨100, 100, 0, 5, 5, 10, 10⟩
            (pinholeEngineUndistort ⟨100, 100, 0, 5, 5, 10, 10⟩ ⟨3, 4⟩)).x - (3 : Rat)| ≤ tol6
      ∧ |(pinholeEngineDistort ⟨100, 100, 0, 5, 5, 10, 10⟩
            (pinholeEngineUndistort ⟨100, 100, 0, 5, 5, 10, 10⟩ ⟨3, 4⟩)).y - (4 : Rat)| ≤ tol6
      ∧ |(pinholeEngineUndistort ⟨100, 100, 0, 5, 5, 10, 10⟩
            (pinholeEngineDistort ⟨100, 100, 0, 5, 5, 10, 10⟩ ⟨3, 4⟩)).x - (3 : Rat)| ≤ tol6
      ∧ |(pinholeEngineUndistort ⟨100, 100, 0, 5, 5, 10, 10⟩
            (pinholeEngineDistort ⟨100, 100, 0, 5, 5, 10, 10⟩ ⟨3, 4⟩)).y - (4 : Rat)| ≤ tol6) :=
  ⟨⟨by decide, by decide, by decide⟩,
   c7_pinhole_roundtrip ⟨100, 100, 0, 5, 5, 10, 10⟩ ⟨3, 4⟩
     (by decide) (by decide) (by decide)⟩

end PyBoofCalib
